import Mathlib

/-!
Verification of the SM3.0 shader-bytecode extractor.

Shallow embedding of `src/extract_sm30.py`.  A Python `bytes` buffer is a
`List Nat` (each element a byte value).  `struct.unpack_from` raising
`struct.error` on a too-short buffer, and `ValueError` on a bad container
magic, are modelled with `Except PyErr`.  The `assert` in
`reconstruct_shader` is modelled as an `Except.error` branch of the result.
All functions are pure and total, mirroring the (single-threaded, raise-only)
Python code.
-/

/-- Error kinds the Python script can raise in its core functions. -/
inductive PyErr where
  | valueError : PyErr
  | structError : PyErr
deriving DecidableEq, Repr

/-- Container magic `b'PDHS'`. -/
def PDHS_MAGIC : List Nat := [0x50, 0x44, 0x48, 0x53]

/-- SM3.0 pixel-shader magic `bytes([0x00, 0x03, 0xFF, 0xFF])`. -/
def PS_MAGIC : List Nat := [0x00, 0x03, 0xFF, 0xFF]

/-- SM3.0 vertex-shader magic `bytes([0x00, 0x03, 0xFE, 0xFF])`. -/
def VS_MAGIC : List Nat := [0x00, 0x03, 0xFE, 0xFF]

/-- Separator between sub-blobs `bytes([0xFF, 0xFF, 0xFF, 0xFF])`. -/
def SEP : List Nat := [0xFF, 0xFF, 0xFF, 0xFF]

/-- DX9 shader end instruction `bytes([0xFF, 0xFF, 0x00, 0x00])`. -/
def END_TOKEN : List Nat := [0xFF, 0xFF, 0x00, 0x00]

/-- `struct.unpack_from("<H", d, pos)[0]`: little-endian 16-bit read;
raises `struct.error` when fewer than 2 bytes are available at `pos`. -/
def unpackH (d : List Nat) (pos : Nat) : Except PyErr Nat :=
  if pos + 2 ≤ d.length then
    Except.ok (d.getD pos 0 + 256 * d.getD (pos + 1) 0)
  else
    Except.error PyErr.structError

/-- `struct.unpack_from("<I", d, pos)[0]`: little-endian 32-bit read;
raises `struct.error` when fewer than 4 bytes are available at `pos`. -/
def unpackI (d : List Nat) (pos : Nat) : Except PyErr Nat :=
  if pos + 4 ≤ d.length then
    Except.ok (d.getD pos 0 + 256 * d.getD (pos + 1) 0 +
      65536 * d.getD (pos + 2) 0 + 16777216 * d.getD (pos + 3) 0)
  else
    Except.error PyErr.structError

/-- Python slice `d[a:b]` for `0 ≤ a`, clamping at the end of the buffer. -/
def pySlice (d : List Nat) (a b : Nat) : List Nat :=
  (d.drop a).take (b - a)

/-- Does `tok` occur in `d` starting exactly at index `i`?  Mirrors the
4-byte window comparisons `blob[p:p+4] == SEP` etc. -/
def matchesAt (d tok : List Nat) (i : Nat) : Bool :=
  (d.drop i).take tok.length == tok

/-- `d.find(tok, start)` from Python `bytes.find`: index of the first full
occurrence of `tok` at or after `start`, `none` when there is none
(Python returns `-1` there). -/
def findFrom (d tok : List Nat) (start : Nat) : Option Nat :=
  ((List.range d.length).filter fun i => decide (start ≤ i) && matchesAt d tok i).head?

/-- The entry-table scan of `parse_pdhs` (the `while pos < len(data) - 6`
loop).  Entry names are kept as raw byte lists: the script's
`decode("ascii", errors="replace")` is a lossy presentation step that is
injective on the raw bytes kept here. -/
def parseLoop (data : List Nat) (pos : Nat)
    (entries : List (List Nat × List Nat)) :
    Except PyErr (List (List Nat × List Nat)) :=
  if h : pos + 6 < data.length then
    match unpackH data pos with
    | Except.error e => Except.error e
    | Except.ok name_len =>
      if name_len = 0 ∨ 128 < name_len then
        Except.ok entries
      else
        match unpackI data (pos + 2 + name_len) with
        | Except.error e => Except.error e
        | Except.ok blob_size =>
          parseLoop data (pos + 2 + name_len + 4 + blob_size)
            (entries ++ [(pySlice data (pos + 2) (pos + 2 + name_len),
                          pySlice data (pos + 2 + name_len + 4)
                            (pos + 2 + name_len + 4 + blob_size))])
  else
    Except.ok entries
termination_by data.length - pos
decreasing_by omega

/-- `parse_pdhs(data)`: checks the `PDHS` magic (raising `ValueError` on
mismatch), reads the version and entry-count words (used only for the
progress print), then scans the entry table. -/
def parse_pdhs (data : List Nat) :
    Except PyErr (List (List Nat × List Nat)) :=
  if data.take 4 ≠ PDHS_MAGIC then
    Except.error PyErr.valueError
  else
    match unpackI data 4 with
    | Except.error e => Except.error e
    | Except.ok _version =>
      match unpackI data 8 with
      | Except.error e => Except.error e
      | Except.ok _num_entries => parseLoop data 12 []

/-- `iter_sep_blobs(blob)`: scan for `SEP`-framed sub-blobs, collected into
a list in yield order (the Python generator is consumed eagerly by its
caller). -/
def iter_sep_blobs (blob : List Nat) (p : Nat) :
    Except PyErr (List (Nat × List Nat)) :=
  if h : p + 16 < blob.length then
    if (blob.drop p).take 4 = SEP then
      match unpackI blob (p + 4) with
      | Except.error e => Except.error e
      | Except.ok kind =>
        match unpackI blob (p + 12) with
        | Except.error e => Except.error e
        | Except.ok blob_size =>
          match iter_sep_blobs blob (p + 16 + blob_size) with
          | Except.error e => Except.error e
          | Except.ok rest =>
            Except.ok ((kind, pySlice blob (p + 16) (p + 16 + blob_size)) :: rest)
    else
      iter_sep_blobs blob (p + 1)
  else
    Except.ok []
termination_by blob.length - p
decreasing_by all_goals omega

/-- The cursor positions at which the loop body of `iter_sep_blobs` runs
(every position where a new frame attempt starts). -/
def sepPositions (blob : List Nat) (p : Nat) : List Nat :=
  if h : p + 16 < blob.length then
    if (blob.drop p).take 4 = SEP then
      match unpackI blob (p + 12) with
      | Except.error _ => [p]
      | Except.ok blob_size => p :: sepPositions blob (p + 16 + blob_size)
    else
      p :: sepPositions blob (p + 1)
  else
    []
termination_by blob.length - p
decreasing_by all_goals omega

/-- `header_end = 4 + 4 + comment_len_dwords * 4` where `comment_len_dwords`
is the 16-bit little-endian field at offset 6 (read under the guard
`len(blob) >= 8`, so the two `getD` reads are in range). -/
def headerEnd (blob : List Nat) : Nat :=
  4 + 4 + (blob.getD 6 0 + 256 * blob.getD 7 0) * 4

/-- `reconstruct_shader(blob)`.  `Except.ok none` is Python's `return None`
(declined), `Except.ok (some b)` is `return b`, and `Except.error` is the
`assert len(reconstructed) == len(blob)` firing (AssertionError). -/
def reconstruct_shader (blob : List Nat) :
    Except String (Option (List Nat)) :=
  if blob.length < 8 then
    Except.ok none
  else if ¬ (blob.take 4 = PS_MAGIC ∨ blob.take 4 = VS_MAGIC) then
    Except.ok none
  else if headerEnd blob ≥ blob.length then
    Except.ok (some blob)
  else
    match findFrom blob END_TOKEN (headerEnd blob) with
    | none => Except.ok (some blob)
    | some split_off =>
      let tail := blob.drop (split_off + 4)
      let main := pySlice blob (headerEnd blob) split_off
      let header := blob.take (headerEnd blob)
      if tail = [] then
        Except.ok (some blob)
      else
        let reconstructed := header ++ tail ++ main ++ END_TOKEN
        if reconstructed.length = blob.length then
          Except.ok (some reconstructed)
        else
          Except.error "Size mismatch after reconstruct"

/-- Diagnostic tags of `validate_shader`, one per WARN print. -/
inductive ValidateDiag where
  | tooShort : ValidateDiag
  | badMagic : ValidateDiag
  | noEndToken : ValidateDiag
deriving DecidableEq, Repr

/-- `validate_shader(data, name)`: boolean verdict plus at most one
diagnostic (the WARN print), checked in source order with early return.
The `name` argument only feeds the printed text and is dropped here. -/
def validate_shader (data : List Nat) : Bool × Option ValidateDiag :=
  if data.length < 8 then
    (false, some ValidateDiag.tooShort)
  else if ¬ (data.take 4 = PS_MAGIC ∨ data.take 4 = VS_MAGIC) then
    (false, some ValidateDiag.badMagic)
  else if data.drop (data.length - 4) ≠ END_TOKEN then
    (false, some ValidateDiag.noEndToken)
  else
    (true, none)

/-- `true` on `Except.ok`, i.e. the call returned without raising. -/
def isOkB {ε α : Type} : Except ε α → Bool
  | Except.ok _ => true
  | Except.error _ => false

/-- Branch conditions under which `reconstruct_shader` reaches the
reassembly step (neither declines nor passes the buffer through). -/
def acceptsReorder (blob : List Nat) : Bool :=
  decide (8 ≤ blob.length) &&
  (blob.take 4 == PS_MAGIC || blob.take 4 == VS_MAGIC) &&
  decide (headerEnd blob < blob.length) &&
  (match findFrom blob END_TOKEN (headerEnd blob) with
   | none => false
   | some split_off => decide (blob.drop (split_off + 4) ≠ []))

/-- The 16-bit little-endian name-length field at `pos` (the value
`unpackH` returns when in range). -/
def nameLenAt (data : List Nat) (pos : Nat) : Nat :=
  data.getD pos 0 + 256 * data.getD (pos + 1) 0

/-- A pixel-shader blob with comment length 0 (header ends at 8), an end
token right after the header and a tail that itself starts with another
end token: `header(8) ++ ENDTOK ++ ENDTOK ++ AA`. -/
def blobSplitTail : List Nat :=
  [0x00, 0x03, 0xFF, 0xFF, 0, 0, 0, 0, 0xFF, 0xFF, 0, 0, 0xFF, 0xFF, 0, 0, 0xAA]

/-- Reconstruction of `blobSplitTail`: `header ++ [FF FF 00 00 AA] ++ end`. -/
def blobSplitTailOnce : List Nat :=
  [0x00, 0x03, 0xFF, 0xFF, 0, 0, 0, 0, 0xFF, 0xFF, 0, 0, 0xAA, 0xFF, 0xFF, 0, 0]

/-- Reconstruction of `blobSplitTailOnce`: the tail `[AA FF FF 00 00]` moved
again, so a second pass changes the bytes a second time. -/
def blobSplitTailTwice : List Nat :=
  [0x00, 0x03, 0xFF, 0xFF, 0, 0, 0, 0, 0xAA, 0xFF, 0xFF, 0, 0, 0xFF, 0xFF, 0, 0]

/-- A pixel-shader blob that already ends at its real end token (empty
tail), so reconstruction passes it through unchanged. -/
def blobNoTail : List Nat :=
  [0x00, 0x03, 0xFF, 0xFF, 0, 0, 0, 0, 0xFF, 0xFF, 0, 0]

/-- A buffer holding only the 4 pixel-shader magic bytes (length 4 < 8). -/
def shortShader : List Nat := [0x00, 0x03, 0xFF, 0xFF]

/-- A PDHS container whose single entry record declares a 5-byte name that
runs to the end of the buffer, leaving no room for the 32-bit blob-size
field: `PDHS ++ version ++ count ++ name_len=5 ++ "AAAAA"`. -/
def pdhsTruncated : List Nat :=
  [0x50, 0x44, 0x48, 0x53, 0, 0, 0, 0, 0, 0, 0, 0, 5, 0, 65, 65, 65, 65, 65]

/-- A buffer holding only the 4 container magic bytes `PDHS`. -/
def pdhsMagicOnly : List Nat := [0x50, 0x44, 0x48, 0x53]

theorem findFrom_some {d tok : List Nat} {s i : Nat}
    (h : findFrom d tok s = some i) :
    s ≤ i ∧ i < d.length ∧ (d.drop i).take tok.length = tok := by
  unfold findFrom at h
  cases hfl : (List.range d.length).filter (fun j => decide (s ≤ j) && matchesAt d tok j) with
  | nil => rw [hfl] at h; simp at h
  | cons a t =>
    rw [hfl] at h
    simp [List.head?] at h
    subst h
    have hmem : a ∈ (List.range d.length).filter
        (fun j => decide (s ≤ j) && matchesAt d tok j) := by
      rw [hfl]; exact List.mem_cons_self a t
    obtain ⟨hrange, hpred⟩ := List.mem_filter.mp hmem
    rw [Bool.and_eq_true] at hpred
    obtain ⟨hs, hm⟩ := hpred
    exact ⟨of_decide_eq_true hs, List.mem_range.mp hrange, eq_of_beq hm⟩

theorem findFrom_some_le {d tok : List Nat} {s i : Nat} (htok : tok.length = 4)
    (h : findFrom d tok s = some i) : i + 4 ≤ d.length := by
  obtain ⟨hs, hi, hm⟩ := findFrom_some h
  have : ((d.drop i).take tok.length).length = tok.length := by rw [hm]
  simp [List.length_take, List.length_drop] at this
  omega

theorem reorder_length {blob : List Nat} {split : Nat}
    (h1 : headerEnd blob ≤ split) (h2 : split + 4 ≤ blob.length) :
    (blob.take (headerEnd blob) ++ blob.drop (split + 4) ++
      pySlice blob (headerEnd blob) split ++ END_TOKEN).length = blob.length := by
  simp [pySlice, END_TOKEN, List.length_append, List.length_take, List.length_drop]
  omega

theorem reconstruct_reorder {blob : List Nat} {split : Nat}
    (hlen : 8 ≤ blob.length)
    (hmagic : blob.take 4 = PS_MAGIC ∨ blob.take 4 = VS_MAGIC)
    (hhe : headerEnd blob < blob.length)
    (hfind : findFrom blob END_TOKEN (headerEnd blob) = some split)
    (htail : blob.drop (split + 4) ≠ []) :
    reconstruct_shader blob =
      Except.ok (some (blob.take (headerEnd blob) ++ blob.drop (split + 4) ++
        pySlice blob (headerEnd blob) split ++ END_TOKEN)) := by
  obtain ⟨hs, hi, hm⟩ := findFrom_some hfind
  have h4 : split + 4 ≤ blob.length := findFrom_some_le (by decide) hfind
  unfold reconstruct_shader
  rw [if_neg (by omega), if_neg (not_not_intro hmagic), if_neg (by omega), hfind]
  simp only []
  rw [if_neg htail, if_pos (reorder_length hs h4)]

theorem headerEnd_ge8 (blob : List Nat) : 8 ≤ headerEnd blob := by
  unfold headerEnd; omega

theorem take4_of_reorder {blob : List Nat} {rest : List Nat}
    (h8 : 8 ≤ blob.length) :
    (blob.take (headerEnd blob) ++ rest).take 4 = blob.take 4 := by
  rw [List.take_append_of_le_length, List.take_take]
  · congr 1
    have := headerEnd_ge8 blob
    omega
  · have := headerEnd_ge8 blob
    simp [List.length_take]
    omega

theorem reconstruct_isOk (blob : List Nat) :
    isOkB (reconstruct_shader blob) = true := by
  unfold reconstruct_shader
  split
  · rfl
  split
  · rfl
  split
  · rfl
  cases hfind : findFrom blob END_TOKEN (headerEnd blob) with
  | none => rfl
  | some split_off =>
    obtain ⟨hs, hi, hm⟩ := findFrom_some hfind
    have h4 : split_off + 4 ≤ blob.length := findFrom_some_le (by decide) hfind
    simp only []
    split
    · rfl
    rw [if_pos (reorder_length hs h4)]
    rfl

theorem reconstruct_ok_facts {blob out : List Nat}
    (h : reconstruct_shader blob = Except.ok (some out)) :
    8 ≤ blob.length ∧ out.length = blob.length ∧ out.take 4 = blob.take 4 ∧
      (blob.take 4 = PS_MAGIC ∨ blob.take 4 = VS_MAGIC) := by
  unfold reconstruct_shader at h
  split at h
  · simp at h
  split at h
  · simp at h
  rename_i hlen hmagic
  have hlen8 : 8 ≤ blob.length := by omega
  have hmagic2 : blob.take 4 = PS_MAGIC ∨ blob.take 4 = VS_MAGIC := not_not.mp hmagic
  split at h
  · simp at h
    exact ⟨hlen8, by rw [h], by rw [h], hmagic2⟩
  cases hfind : findFrom blob END_TOKEN (headerEnd blob) with
  | none =>
    rw [hfind] at h
    simp at h
    exact ⟨hlen8, by rw [h], by rw [h], hmagic2⟩
  | some split_off =>
    rw [hfind] at h
    simp only [] at h
    split at h
    · simp at h
      exact ⟨hlen8, by rw [h], by rw [h], hmagic2⟩
    split at h
    · rename_i hrl
      simp at h
      subst h
      exact ⟨hlen8, by simpa [List.append_assoc] using hrl, take4_of_reorder hlen8, hmagic2⟩
    · simp at h

theorem unpackH_ok {d : List Nat} {pos : Nat} (h : pos + 2 ≤ d.length) :
    unpackH d pos = Except.ok (nameLenAt d pos) := by
  unfold unpackH nameLenAt
  rw [if_pos h]

theorem unpackH_error {d : List Nat} {pos : Nat} {e : PyErr}
    (h : unpackH d pos = Except.error e) : e = PyErr.structError := by
  unfold unpackH at h
  split at h
  · simp at h
  · simp at h
    exact h.symm

theorem unpackI_error {d : List Nat} {pos : Nat} {e : PyErr}
    (h : unpackI d pos = Except.error e) : e = PyErr.structError := by
  unfold unpackI at h
  split at h
  · simp at h
  · simp at h
    exact h.symm

theorem parseLoop_ok_length (data : List Nat) (pos : Nat)
    (entries : List (List Nat × List Nat)) :
    ∀ l, parseLoop data pos entries = Except.ok l → entries.length ≤ l.length := by
  induction pos, entries using parseLoop.induct data with
  | case1 pos entries h6 e hH =>
    intro l hl
    rw [parseLoop, dif_pos h6, hH] at hl
    simp at hl
  | case2 pos entries h6 name_len hH hr =>
    intro l hl
    rw [parseLoop, dif_pos h6, hH] at hl
    simp only [] at hl
    rw [if_pos hr] at hl
    simp at hl
    rw [hl]
  | case3 pos entries h6 name_len hH hr e hI =>
    intro l hl
    rw [parseLoop, dif_pos h6, hH] at hl
    simp only [] at hl
    rw [if_neg hr, hI] at hl
    simp at hl
  | case4 pos entries h6 name_len hH hr blob_size hI IH =>
    intro l hl
    rw [parseLoop, dif_pos h6, hH] at hl
    simp only [] at hl
    rw [if_neg hr, hI] at hl
    simp only [] at hl
    have := IH l hl
    simp [List.length_append] at this
    omega
  | case5 pos entries h6 =>
    intro l hl
    rw [parseLoop, dif_neg h6] at hl
    simp at hl
    rw [hl]

theorem parseLoop_no_valueError (data : List Nat) (pos : Nat)
    (entries : List (List Nat × List Nat)) :
    parseLoop data pos entries ≠ Except.error PyErr.valueError := by
  induction pos, entries using parseLoop.induct data with
  | case1 pos entries h6 e hH =>
    intro hl
    rw [parseLoop, dif_pos h6, hH] at hl
    simp only [] at hl
    rw [unpackH_error hH] at hl
    simp at hl
  | case2 pos entries h6 name_len hH hr =>
    intro hl
    rw [parseLoop, dif_pos h6, hH] at hl
    simp only [] at hl
    rw [if_pos hr] at hl
    simp at hl
  | case3 pos entries h6 name_len hH hr e hI =>
    intro hl
    rw [parseLoop, dif_pos h6, hH] at hl
    simp only [] at hl
    rw [if_neg hr, hI] at hl
    simp only [] at hl
    rw [unpackI_error hI] at hl
    simp at hl
  | case4 pos entries h6 name_len hH hr blob_size hI IH =>
    intro hl
    rw [parseLoop, dif_pos h6, hH] at hl
    simp only [] at hl
    rw [if_neg hr, hI] at hl
    simp only [] at hl
    exact IH hl
  | case5 pos entries h6 =>
    intro hl
    rw [parseLoop, dif_neg h6] at hl
    simp at hl

theorem parseLoop_ok_self_iff (data : List Nat) (pos : Nat)
    (entries : List (List Nat × List Nat)) :
    parseLoop data pos entries = Except.ok entries ↔
      (data.length ≤ pos + 6 ∨
        (pos + 6 < data.length ∧
          (nameLenAt data pos = 0 ∨ 128 < nameLenAt data pos))) := by
  constructor
  · intro h
    by_cases h6 : pos + 6 < data.length
    · right
      refine ⟨h6, ?_⟩
      by_cases hr : nameLenAt data pos = 0 ∨ 128 < nameLenAt data pos
      · exact hr
      · exfalso
        rw [parseLoop, dif_pos h6, unpackH_ok (by omega)] at h
        simp only [] at h
        rw [if_neg hr] at h
        cases hI : unpackI data (pos + 2 + nameLenAt data pos) with
        | error e => rw [hI] at h; simp at h
        | ok bs =>
          rw [hI] at h
          simp only [] at h
          have := parseLoop_ok_length data _ _ _ h
          simp [List.length_append] at this
    · left; omega
  · intro h
    rcases h with h | ⟨h6, hr⟩
    · rw [parseLoop, dif_neg (by omega)]
    · rw [parseLoop, dif_pos h6, unpackH_ok (by omega)]
      simp only []
      rw [if_pos hr]

theorem parseLoop_insufficient_error (data : List Nat) (pos : Nat)
    (entries : List (List Nat × List Nat))
    (h6 : pos + 6 < data.length)
    (h0 : nameLenAt data pos ≠ 0) (h128 : nameLenAt data pos ≤ 128)
    (hins : data.length < pos + 2 + nameLenAt data pos + 4) :
    parseLoop data pos entries = Except.error PyErr.structError := by
  rw [parseLoop, dif_pos h6, unpackH_ok (by omega)]
  simp only []
  rw [if_neg (by omega)]
  have hI : unpackI data (pos + 2 + nameLenAt data pos) =
      Except.error PyErr.structError := by
    unfold unpackI
    rw [if_neg (by omega)]
  rw [hI]

theorem getD_congr_of_drop {d1 d2 : List Nat} (hlen : d1.length = d2.length)
    (hdrop : d1.drop 12 = d2.drop 12) {i : Nat} (hi : 12 ≤ i) :
    d1.getD i 0 = d2.getD i 0 := by
  rw [List.getD_eq_getElem?_getD, List.getD_eq_getElem?_getD]
  have h1 : d1[i]? = (d1.drop 12)[i - 12]? := by
    rw [List.getElem?_drop]
    congr 1
    omega
  have h2 : d2[i]? = (d2.drop 12)[i - 12]? := by
    rw [List.getElem?_drop]
    congr 1
    omega
  rw [h1, h2, hdrop]

theorem drop_congr_of_drop {d1 d2 : List Nat}
    (hdrop : d1.drop 12 = d2.drop 12) {p : Nat} (hp : 12 ≤ p) :
    d1.drop p = d2.drop p := by
  have h1 : d1.drop p = (d1.drop 12).drop (p - 12) := by
    rw [List.drop_drop]
    congr 1
    omega
  have h2 : d2.drop p = (d2.drop 12).drop (p - 12) := by
    rw [List.drop_drop]
    congr 1
    omega
  rw [h1, h2, hdrop]

theorem pySlice_congr_of_drop {d1 d2 : List Nat}
    (hdrop : d1.drop 12 = d2.drop 12) {a b : Nat} (ha : 12 ≤ a) :
    pySlice d1 a b = pySlice d2 a b := by
  unfold pySlice
  rw [drop_congr_of_drop hdrop ha]

theorem unpackH_congr {d1 d2 : List Nat} (hlen : d1.length = d2.length)
    (hdrop : d1.drop 12 = d2.drop 12) {pos : Nat} (hp : 12 ≤ pos) :
    unpackH d1 pos = unpackH d2 pos := by
  unfold unpackH
  by_cases hc : pos + 2 ≤ d2.length
  · rw [if_pos (by omega), if_pos hc,
      getD_congr_of_drop hlen hdrop (by omega : 12 ≤ pos),
      getD_congr_of_drop hlen hdrop (by omega : 12 ≤ pos + 1)]
  · rw [if_neg (by omega), if_neg hc]

theorem unpackI_congr {d1 d2 : List Nat} (hlen : d1.length = d2.length)
    (hdrop : d1.drop 12 = d2.drop 12) {pos : Nat} (hp : 12 ≤ pos) :
    unpackI d1 pos = unpackI d2 pos := by
  unfold unpackI
  by_cases hc : pos + 4 ≤ d2.length
  · rw [if_pos (by omega), if_pos hc,
      getD_congr_of_drop hlen hdrop (by omega : 12 ≤ pos),
      getD_congr_of_drop hlen hdrop (by omega : 12 ≤ pos + 1),
      getD_congr_of_drop hlen hdrop (by omega : 12 ≤ pos + 2),
      getD_congr_of_drop hlen hdrop (by omega : 12 ≤ pos + 3)]
  · rw [if_neg (by omega), if_neg hc]

theorem parseLoop_congr {d1 d2 : List Nat} (hlen : d1.length = d2.length)
    (hdrop : d1.drop 12 = d2.drop 12) (pos : Nat)
    (entries : List (List Nat × List Nat)) (hp : 12 ≤ pos) :
    parseLoop d1 pos entries = parseLoop d2 pos entries := by
  induction pos, entries using parseLoop.induct d1 with
  | case1 pos entries h6 e hH =>
    have hH2 : unpackH d2 pos = Except.error e :=
      (unpackH_congr hlen hdrop hp).symm.trans hH
    rw [parseLoop, parseLoop, dif_pos h6, dif_pos (by omega), hH, hH2]
  | case2 pos entries h6 name_len hH hr =>
    have hH2 : unpackH d2 pos = Except.ok name_len :=
      (unpackH_congr hlen hdrop hp).symm.trans hH
    rw [parseLoop, parseLoop, dif_pos h6, dif_pos (by omega), hH, hH2]
    simp only []
    rw [if_pos hr, if_pos hr]
  | case3 pos entries h6 name_len hH hr e hI =>
    have hH2 : unpackH d2 pos = Except.ok name_len :=
      (unpackH_congr hlen hdrop hp).symm.trans hH
    have hI2 : unpackI d2 (pos + 2 + name_len) = Except.error e :=
      (unpackI_congr hlen hdrop (by omega)).symm.trans hI
    rw [parseLoop, parseLoop, dif_pos h6, dif_pos (by omega), hH, hH2]
    simp only []
    rw [if_neg hr, if_neg hr, hI, hI2]
  | case4 pos entries h6 name_len hH hr blob_size hI IH =>
    have hH2 : unpackH d2 pos = Except.ok name_len :=
      (unpackH_congr hlen hdrop hp).symm.trans hH
    have hI2 : unpackI d2 (pos + 2 + name_len) = Except.ok blob_size :=
      (unpackI_congr hlen hdrop (by omega)).symm.trans hI
    rw [parseLoop, parseLoop, dif_pos h6, dif_pos (by omega), hH, hH2]
    simp only []
    rw [if_neg hr, if_neg hr, hI, hI2]
    simp only []
    rw [← pySlice_congr_of_drop hdrop (by omega : 12 ≤ pos + 2),
      ← pySlice_congr_of_drop hdrop (by omega : 12 ≤ pos + 2 + name_len + 4)]
    exact IH (by omega)
  | case5 pos entries h6 =>
    rw [parseLoop, parseLoop, dif_neg h6, dif_neg (by omega)]

theorem acceptsReorder_spec {blob : List Nat} (hacc : acceptsReorder blob = true) :
    ∃ split_off, 8 ≤ blob.length ∧
      (blob.take 4 = PS_MAGIC ∨ blob.take 4 = VS_MAGIC) ∧
      headerEnd blob < blob.length ∧
      findFrom blob END_TOKEN (headerEnd blob) = some split_off ∧
      blob.drop (split_off + 4) ≠ [] := by
  unfold acceptsReorder at hacc
  rw [Bool.and_eq_true, Bool.and_eq_true, Bool.and_eq_true] at hacc
  obtain ⟨⟨⟨h8, hmagic⟩, hhe⟩, hfind⟩ := hacc
  cases hf : findFrom blob END_TOKEN (headerEnd blob) with
  | none => rw [hf] at hfind; simp at hfind
  | some split_off =>
    rw [hf] at hfind
    simp only [] at hfind
    refine ⟨split_off, of_decide_eq_true h8, ?_, of_decide_eq_true hhe, rfl,
      of_decide_eq_true hfind⟩
    rw [Bool.or_eq_true] at hmagic
    rcases hmagic with h | h
    · exact Or.inl (eq_of_beq h)
    · exact Or.inr (eq_of_beq h)

/-- Claim C1: for a buffer of length at least 8 carrying a shader magic,
with header_end strictly inside the buffer, whose first end-token
occurrence at or after header_end sits at split_offset with a non-empty
tail behind it, the reconstructor returns exactly
header ++ tail ++ main ++ end_token. -/
theorem C1_reconstruct_reorder_exact (blob : List Nat) (split_off : Nat)
    (hlen : 8 ≤ blob.length)
    (hmagic : blob.take 4 = PS_MAGIC ∨ blob.take 4 = VS_MAGIC)
    (hhe : headerEnd blob < blob.length)
    (hfind : findFrom blob END_TOKEN (headerEnd blob) = some split_off)
    (htail : blob.drop (split_off + 4) ≠ []) :
    reconstruct_shader blob =
      Except.ok (some (blob.take (headerEnd blob) ++ blob.drop (split_off + 4) ++
        pySlice blob (headerEnd blob) split_off ++ END_TOKEN)) :=
  reconstruct_reorder hlen hmagic hhe hfind htail

theorem C1_reconstruct_reorder_exact_witness :
    8 ≤ blobSplitTail.length ∧
    (blobSplitTail.take 4 = PS_MAGIC ∨ blobSplitTail.take 4 = VS_MAGIC) ∧
    headerEnd blobSplitTail < blobSplitTail.length ∧
    findFrom blobSplitTail END_TOKEN (headerEnd blobSplitTail) = some 8 ∧
    blobSplitTail.drop (8 + 4) ≠ [] ∧
    reconstruct_shader blobSplitTail =
      Except.ok (some (blobSplitTail.take (headerEnd blobSplitTail) ++
        blobSplitTail.drop (8 + 4) ++
        pySlice blobSplitTail (headerEnd blobSplitTail) 8 ++ END_TOKEN)) :=
  ⟨by decide, by decide, by decide, by decide, by decide,
    C1_reconstruct_reorder_exact blobSplitTail 8 (by decide) (by decide)
      (by decide) (by decide) (by decide)⟩

/-- Claim C2: the reconstructor never hits the size-mismatch assertion, and
on every accepted input (one that reaches the reassembly step) the output
length equals the input length. -/
theorem C2_accepted_length_conserved (blob : List Nat) :
    isOkB (reconstruct_shader blob) = true ∧
    (acceptsReorder blob = true →
      ∃ out, reconstruct_shader blob = Except.ok (some out) ∧
        out.length = blob.length) := by
  refine ⟨reconstruct_isOk blob, fun hacc => ?_⟩
  obtain ⟨split_off, h8, hmagic, hhe, hf, htail⟩ := acceptsReorder_spec hacc
  exact ⟨_, reconstruct_reorder h8 hmagic hhe hf htail,
    reorder_length (findFrom_some hf).1 (findFrom_some_le (by decide) hf)⟩

theorem C2_accepted_length_conserved_witness :
    acceptsReorder blobSplitTail = true ∧
    isOkB (reconstruct_shader blobSplitTail) = true ∧
    (∃ out, reconstruct_shader blobSplitTail = Except.ok (some out) ∧
      out.length = blobSplitTail.length) :=
  ⟨by decide, (C2_accepted_length_conserved blobSplitTail).1,
    (C2_accepted_length_conserved blobSplitTail).2 (by decide)⟩

/-- Claim C3 (corrected): a second reconstruction pass returns its input
unchanged provided the first pass already passed the buffer through, or
the first end-token occurrence at or after header_end in the once-
reconstructed buffer is its final four bytes.  Unconditional idempotence
fails; see the counterexample. -/
theorem C3_idempotent_when_end_token_final (blob out : List Nat)
    (h : reconstruct_shader blob = Except.ok (some out))
    (hcanon : out = blob ∨
      findFrom out END_TOKEN (headerEnd out) = some (out.length - 4)) :
    reconstruct_shader out = Except.ok (some out) := by
  rcases hcanon with rfl | hfind
  · exact h
  · obtain ⟨h8, hlen, htake, hmagic⟩ := reconstruct_ok_facts h
    have hmagic2 : out.take 4 = PS_MAGIC ∨ out.take 4 = VS_MAGIC := by
      rw [htake]
      exact hmagic
    obtain ⟨hs, hi, hm⟩ := findFrom_some hfind
    have h8o : 8 ≤ out.length := by omega
    have htail0 : out.drop (out.length - 4 + 4) = [] := by
      have h4 : out.length - 4 + 4 = out.length := by omega
      rw [h4]
      exact List.drop_length out
    unfold reconstruct_shader
    rw [if_neg (by omega), if_neg (not_not_intro hmagic2), if_neg (by omega), hfind]
    simp only []
    rw [if_pos htail0]

theorem C3_idempotent_when_end_token_final_witness :
    reconstruct_shader blobNoTail = Except.ok (some blobNoTail) ∧
    reconstruct_shader blobNoTail = Except.ok (some blobNoTail) :=
  ⟨rfl, C3_idempotent_when_end_token_final blobNoTail blobNoTail rfl (Or.inl rfl)⟩

/-- Claim C3 counterexample: a pixel-shader blob whose tail contains the
end token is transformed to different bytes by a second pass, refuting
idempotence for every shader magic buffer. -/
theorem C3_idempotence_counterexample :
    (blobSplitTail.take 4 = PS_MAGIC ∨ blobSplitTail.take 4 = VS_MAGIC) ∧
    reconstruct_shader blobSplitTail = Except.ok (some blobSplitTailOnce) ∧
    reconstruct_shader blobSplitTailOnce = Except.ok (some blobSplitTailTwice) ∧
    blobSplitTailTwice ≠ blobSplitTailOnce :=
  ⟨by decide, rfl, rfl, by decide⟩

/-- Claim C4 (corrected): buffers shorter than 8 bytes and buffers with an
unrecognized magic make the reconstructor decline with the none result
(not return the buffer); only the out-of-range header end is returned
unchanged.  No error is raised in any of the three cases. -/
theorem C4_declined_behaviour (blob : List Nat) :
    (blob.length < 8 → reconstruct_shader blob = Except.ok none) ∧
    (8 ≤ blob.length → blob.take 4 ≠ PS_MAGIC → blob.take 4 ≠ VS_MAGIC →
      reconstruct_shader blob = Except.ok none) ∧
    (8 ≤ blob.length → (blob.take 4 = PS_MAGIC ∨ blob.take 4 = VS_MAGIC) →
      blob.length ≤ headerEnd blob →
      reconstruct_shader blob = Except.ok (some blob)) := by
  refine ⟨?_, ?_, ?_⟩
  · intro h
    unfold reconstruct_shader
    rw [if_pos h]
  · intro h8 hps hvs
    unfold reconstruct_shader
    rw [if_neg (by omega), if_pos (not_or.mpr ⟨hps, hvs⟩)]
  · intro h8 hmagic hhe
    unfold reconstruct_shader
    rw [if_neg (by omega), if_neg (not_not_intro hmagic), if_pos hhe]

theorem C4_declined_behaviour_witness :
    shortShader.length < 8 ∧ reconstruct_shader shortShader = Except.ok none :=
  ⟨by decide, (C4_declined_behaviour shortShader).1 (by decide)⟩

/-- Claim C4 counterexample: a 4-byte buffer carrying the pixel-shader
magic is declined with the none result, which is not the buffer returned
unchanged. -/
theorem C4_decline_returns_none_counterexample :
    shortShader.length < 8 ∧
    reconstruct_shader shortShader = Except.ok none ∧
    (Except.ok none : Except String (Option (List Nat))) ≠
      Except.ok (some shortShader) :=
  ⟨by decide, rfl, by simp⟩

/-- Claim C5: the validator returns false exactly when the length is below
8, or the first 4 bytes are neither shader magic, or the last 4 bytes are
not the end token; the checks run in that order, short-circuiting on the
first failure, as witnessed by which diagnostic is produced; a fully
passing buffer yields a true verdict with no diagnostic. -/
theorem C5_validator_characterization (data : List Nat) :
    ((validate_shader data).1 = false ↔
      (data.length < 8 ∨ (data.take 4 ≠ PS_MAGIC ∧ data.take 4 ≠ VS_MAGIC) ∨
        data.drop (data.length - 4) ≠ END_TOKEN)) ∧
    (data.length < 8 → validate_shader data = (false, some ValidateDiag.tooShort)) ∧
    (8 ≤ data.length → data.take 4 ≠ PS_MAGIC → data.take 4 ≠ VS_MAGIC →
      validate_shader data = (false, some ValidateDiag.badMagic)) ∧
    (8 ≤ data.length → (data.take 4 = PS_MAGIC ∨ data.take 4 = VS_MAGIC) →
      data.drop (data.length - 4) ≠ END_TOKEN →
      validate_shader data = (false, some ValidateDiag.noEndToken)) ∧
    (8 ≤ data.length → (data.take 4 = PS_MAGIC ∨ data.take 4 = VS_MAGIC) →
      data.drop (data.length - 4) = END_TOKEN →
      validate_shader data = (true, none)) := by
  by_cases h1 : data.length < 8
  · have hv : validate_shader data = (false, some ValidateDiag.tooShort) := by
      unfold validate_shader
      rw [if_pos h1]
    rw [hv]
    exact ⟨by simp [h1], fun _ => rfl, fun h8 _ _ => absurd h1 (by omega),
      fun h8 _ _ => absurd h1 (by omega), fun h8 _ _ => absurd h1 (by omega)⟩
  · by_cases h2 : data.take 4 = PS_MAGIC ∨ data.take 4 = VS_MAGIC
    · by_cases h3 : data.drop (data.length - 4) = END_TOKEN
      · have hv : validate_shader data = (true, none) := by
          unfold validate_shader
          rw [if_neg h1, if_neg (not_not_intro h2), if_neg (not_not_intro h3)]
        rw [hv]
        refine ⟨?_, fun h => absurd h h1,
          fun _ hps hvs => absurd h2 (not_or.mpr ⟨hps, hvs⟩),
          fun _ _ he => absurd h3 he, fun _ _ _ => rfl⟩
        constructor
        · intro h
          exact absurd h (by simp)
        · intro hdisj
          rcases hdisj with h | ⟨hps, hvs⟩ | h
          · exact absurd h h1
          · exact absurd h2 (not_or.mpr ⟨hps, hvs⟩)
          · exact absurd h3 h
      · have hv : validate_shader data = (false, some ValidateDiag.noEndToken) := by
          unfold validate_shader
          rw [if_neg h1, if_neg (not_not_intro h2), if_pos h3]
        rw [hv]
        exact ⟨by simp [h3], fun h => absurd h h1,
          fun _ hps hvs => absurd h2 (not_or.mpr ⟨hps, hvs⟩), fun _ _ _ => rfl,
          fun _ _ he => absurd he h3⟩
    · have hv : validate_shader data = (false, some ValidateDiag.badMagic) := by
        unfold validate_shader
        rw [if_neg h1, if_pos h2]
      rw [hv]
      rw [not_or] at h2
      exact ⟨by simp [h2.1, h2.2], fun h => absurd h h1, fun _ _ _ => rfl,
        fun _ hm _ => absurd hm (not_or.mpr h2),
        fun _ hm _ => absurd hm (not_or.mpr h2)⟩

theorem C5_validator_characterization_witness :
    ([0] : List Nat).length < 8 ∧
    validate_shader [0] = (false, some ValidateDiag.tooShort) :=
  ⟨by decide, (C5_validator_characterization [0]).2.1 (by decide)⟩

theorem iter_sep_blobs_isOk (blob : List Nat) (p : Nat) :
    isOkB (iter_sep_blobs blob p) = true := by
  induction p using iter_sep_blobs.induct blob with
  | case1 p h16 hsep e hk =>
    exfalso
    unfold unpackI at hk
    rw [if_pos (by omega)] at hk
    simp at hk
  | case2 p h16 hsep k hok e hbs =>
    exfalso
    unfold unpackI at hbs
    rw [if_pos (by omega)] at hbs
    simp at hbs
  | case3 p h16 hsep k hok bs hbs e hrec IH =>
    exfalso
    rw [hrec] at IH
    simp [isOkB] at IH
  | case4 p h16 hsep k hok bs hbs rest hrec IH =>
    rw [iter_sep_blobs, dif_pos h16, if_pos hsep, hok]
    simp only []
    rw [hbs]
    simp only []
    rw [hrec]
    rfl
  | case5 p h16 hsep IH =>
    rw [iter_sep_blobs, dif_pos h16, if_neg hsep]
    exact IH
  | case6 p h16 =>
    rw [iter_sep_blobs, dif_neg h16]
    rfl

theorem sepPositions_bound (blob : List Nat) (p : Nat) :
    (sepPositions blob p).all (fun q => decide (q + 16 < blob.length)) = true := by
  induction p using sepPositions.induct blob with
  | case1 p h16 hsep e herr =>
    exfalso
    unfold unpackI at herr
    rw [if_pos (by omega)] at herr
    simp at herr
  | case2 p h16 hsep bs hok IH =>
    rw [sepPositions, dif_pos h16, if_pos hsep, hok]
    simp only [List.all_cons, Bool.and_eq_true]
    exact ⟨decide_eq_true h16, IH⟩
  | case3 p h16 hsep IH =>
    rw [sepPositions, dif_pos h16, if_neg hsep]
    simp only [List.all_cons, Bool.and_eq_true]
    exact ⟨decide_eq_true h16, IH⟩
  | case4 p h16 =>
    rw [sepPositions, dif_neg h16]
    rfl

theorem drop_last4_append (X : List Nat) :
    (X ++ END_TOKEN).drop ((X ++ END_TOKEN).length - 4) = END_TOKEN := by
  have h : (X ++ END_TOKEN).length - 4 = X.length := by
    simp [END_TOKEN]
  rw [h]
  exact List.drop_left X END_TOKEN

/-- Claim C6 (corrected): the entry-table scan returns exactly the entries
collected so far when the cursor reaches a point where the name-length
field is 0 or above 128, or where 6 or fewer bytes remain - and only
then; but a name-length in range whose record leaves fewer than 4 bytes
for the 32-bit blob-size field makes the scan raise a struct error, so
insufficient remaining bytes at that read is treated as an error. -/
theorem C6_entry_table_termination (data : List Nat) (pos : Nat)
    (entries : List (List Nat × List Nat)) :
    (parseLoop data pos entries = Except.ok entries ↔
      (data.length ≤ pos + 6 ∨
        (pos + 6 < data.length ∧
          (nameLenAt data pos = 0 ∨ 128 < nameLenAt data pos)))) ∧
    (pos + 6 < data.length → nameLenAt data pos ≠ 0 →
      nameLenAt data pos ≤ 128 →
      data.length < pos + 2 + nameLenAt data pos + 4 →
      parseLoop data pos entries = Except.error PyErr.structError) :=
  ⟨parseLoop_ok_self_iff data pos entries,
    parseLoop_insufficient_error data pos entries⟩

theorem C6_entry_table_termination_witness :
    pdhsTruncated.length < 12 + 2 + nameLenAt pdhsTruncated 12 + 4 ∧
    parseLoop pdhsTruncated 12 [] = Except.error PyErr.structError :=
  ⟨by decide, (C6_entry_table_termination pdhsTruncated 12 []).2
    (by decide) (by decide) (by decide) (by decide)⟩

/-- Claim C6 counterexample: a PDHS container whose entry name runs to the
end of the buffer makes the parser raise a struct error, refuting the
claim that insufficient remaining bytes are never treated as an error. -/
theorem C6_insufficient_bytes_error_counterexample :
    pdhsTruncated.take 4 = PDHS_MAGIC ∧
    parse_pdhs pdhsTruncated = Except.error PyErr.structError := by
  constructor
  · decide
  · rw [parse_pdhs, if_neg (by decide)]
    rw [show unpackI pdhsTruncated 4 = Except.ok 0 from rfl]
    simp only []
    rw [show unpackI pdhsTruncated 8 = Except.ok 0 from rfl]
    simp only []
    exact parseLoop_insufficient_error pdhsTruncated 12 []
      (by decide) (by decide) (by decide) (by decide)

/-- Claim C7: the framer is a total function (termination is intrinsic to
the definition), it never raises, a buffer of 16 or fewer bytes yields no
frames (trailing bytes silently discarded), and every cursor position at
which a frame attempt starts satisfies position + 16 < length. -/
theorem C7_framer_total_no_overrun (blob : List Nat) :
    isOkB (iter_sep_blobs blob 0) = true ∧
    (sepPositions blob 0).all (fun q => decide (q + 16 < blob.length)) = true ∧
    (blob.length ≤ 16 → iter_sep_blobs blob 0 = Except.ok []) := by
  refine ⟨iter_sep_blobs_isOk blob 0, sepPositions_bound blob 0, fun h => ?_⟩
  rw [iter_sep_blobs, dif_neg (by omega)]

theorem C7_framer_total_no_overrun_witness :
    ([1, 2, 3] : List Nat).length ≤ 16 ∧
    iter_sep_blobs [1, 2, 3] 0 = Except.ok [] :=
  ⟨by decide, (C7_framer_total_no_overrun [1, 2, 3]).2.2 (by decide)⟩

/-- Claim C8 (corrected): the container parser raises the ValueError format
error exactly when the first 4 bytes differ from PDHS (so no entries are
produced on mismatch); a buffer beginning with PDHS never sees the
format error, but it either parses to an entry list or raises a struct
error (too short for the fixed header, or a blob-size field overrun). -/
theorem C8_format_error_iff_bad_magic (data : List Nat) :
    (parse_pdhs data = Except.error PyErr.valueError ↔
      data.take 4 ≠ PDHS_MAGIC) ∧
    (data.take 4 = PDHS_MAGIC →
      parse_pdhs data = Except.error PyErr.structError ∨
        ∃ l, parse_pdhs data = Except.ok l) := by
  constructor
  · constructor
    · intro h
      by_contra hmagic
      rw [parse_pdhs, if_neg (not_not_intro hmagic)] at h
      cases h4 : unpackI data 4 with
      | error e =>
        rw [h4] at h
        simp only [] at h
        rw [unpackI_error h4] at h
        simp at h
      | ok v =>
        rw [h4] at h
        simp only [] at h
        cases h8 : unpackI data 8 with
        | error e =>
          rw [h8] at h
          simp only [] at h
          rw [unpackI_error h8] at h
          simp at h
        | ok w =>
          rw [h8] at h
          simp only [] at h
          exact parseLoop_no_valueError data 12 [] h
    · intro hmagic
      rw [parse_pdhs, if_pos hmagic]
  · intro hmagic
    rw [parse_pdhs, if_neg (not_not_intro hmagic)]
    cases h4 : unpackI data 4 with
    | error e =>
      left
      simp only []
      rw [unpackI_error h4]
    | ok v =>
      simp only []
      cases h8 : unpackI data 8 with
      | error e =>
        left
        simp only []
        rw [unpackI_error h8]
      | ok w =>
        simp only []
        cases hp : parseLoop data 12 [] with
        | error e =>
          left
          cases e with
          | valueError => exact absurd hp (parseLoop_no_valueError data 12 [])
          | structError => rfl
        | ok l => exact Or.inr ⟨l, rfl⟩

theorem C8_format_error_iff_bad_magic_witness :
    ([0x58, 0x58, 0x58, 0x58] : List Nat).take 4 ≠ PDHS_MAGIC ∧
    parse_pdhs [0x58, 0x58, 0x58, 0x58] = Except.error PyErr.valueError :=
  ⟨by decide,
    (C8_format_error_iff_bad_magic [0x58, 0x58, 0x58, 0x58]).1.mpr (by decide)⟩

/-- Claim C8 counterexample: a 4-byte buffer that is exactly the PDHS magic
still fails - with a struct error from the version-field read - refuting
the claim that every buffer beginning with PDHS parses without raising. -/
theorem C8_pdhs_struct_error_counterexample :
    pdhsMagicOnly.take 4 = PDHS_MAGIC ∧
    parse_pdhs pdhsMagicOnly = Except.error PyErr.structError :=
  ⟨by decide, rfl⟩

/-- Claim C9: whenever the reconstructor performs a reorder, the output
passes the validator - its length is at least 8, its first 4 bytes equal
the input's shader magic, and its last 4 bytes are the end token. -/
theorem C9_reordered_output_validates (blob : List Nat)
    (hacc : acceptsReorder blob = true) :
    ∃ out, reconstruct_shader blob = Except.ok (some out) ∧
      validate_shader out = (true, none) ∧ out.take 4 = blob.take 4 := by
  obtain ⟨split_off, h8, hmagic, hhe, hf, htail⟩ := acceptsReorder_spec hacc
  have hlenout := reorder_length (findFrom_some hf).1 (findFrom_some_le (by decide) hf)
  have hout4 : (blob.take (headerEnd blob) ++ blob.drop (split_off + 4) ++
      pySlice blob (headerEnd blob) split_off ++ END_TOKEN).take 4 = blob.take 4 := by
    rw [List.append_assoc, List.append_assoc]
    exact take4_of_reorder h8
  refine ⟨_, reconstruct_reorder h8 hmagic hhe hf htail, ?_, hout4⟩
  unfold validate_shader
  rw [if_neg (by omega), if_neg (not_not_intro (by rw [hout4]; exact hmagic)),
    if_neg (not_not_intro (drop_last4_append _))]

theorem C9_reordered_output_validates_witness :
    acceptsReorder blobSplitTail = true ∧
    (∃ out, reconstruct_shader blobSplitTail = Except.ok (some out) ∧
      validate_shader out = (true, none) ∧
      out.take 4 = blobSplitTail.take 4) :=
  ⟨by decide, C9_reordered_output_validates blobSplitTail (by decide)⟩

/-- Claim C10: the declared 32-bit entry count at offset 8 never influences
entry-table parsing - two containers that agree everywhere except in
bytes 8 to 11 produce identical parse results. -/
theorem C10_entry_count_field_unused (pre m1 m2 post : List Nat)
    (hpre : pre.length = 8) (hm1 : m1.length = 4) (hm2 : m2.length = 4) :
    parse_pdhs (pre ++ m1 ++ post) = parse_pdhs (pre ++ m2 ++ post) := by
  have hlen : (pre ++ m1 ++ post).length = (pre ++ m2 ++ post).length := by
    simp [List.length_append, hm1, hm2]
  have hdrop : (pre ++ m1 ++ post).drop 12 = (pre ++ m2 ++ post).drop 12 := by
    rw [List.drop_left' (by rw [List.length_append, hpre, hm1]),
      List.drop_left' (by rw [List.length_append, hpre, hm2])]
  have htake1 : (pre ++ m1 ++ post).take 4 = pre.take 4 := by
    rw [List.take_append_of_le_length (by rw [List.length_append, hpre, hm1]; omega),
      List.take_append_of_le_length (by omega)]
  have htake2 : (pre ++ m2 ++ post).take 4 = pre.take 4 := by
    rw [List.take_append_of_le_length (by rw [List.length_append, hpre, hm2]; omega),
      List.take_append_of_le_length (by omega)]
  have hgetD : ∀ i, i < 8 →
      (pre ++ m1 ++ post).getD i 0 = (pre ++ m2 ++ post).getD i 0 := by
    intro i hi
    rw [List.getD_append _ _ _ i (by rw [List.length_append]; omega),
      List.getD_append _ _ _ i (by omega),
      List.getD_append _ _ _ i (by rw [List.length_append]; omega),
      List.getD_append _ _ _ i (by omega)]
  have hI4 : unpackI (pre ++ m1 ++ post) 4 = unpackI (pre ++ m2 ++ post) 4 := by
    unfold unpackI
    rw [hlen, hgetD 4 (by omega), hgetD 5 (by omega), hgetD 6 (by omega),
      hgetD 7 (by omega)]
  rw [parse_pdhs, parse_pdhs, htake1, htake2]
  by_cases hmg : pre.take 4 ≠ PDHS_MAGIC
  · rw [if_pos hmg, if_pos hmg]
  · rw [if_neg hmg, if_neg hmg, hI4]
    cases h4 : unpackI (pre ++ m2 ++ post) 4 with
    | error e => rfl
    | ok v =>
      simp only []
      have h81 : unpackI (pre ++ m1 ++ post) 8 =
          Except.ok ((pre ++ m1 ++ post).getD 8 0 +
            256 * (pre ++ m1 ++ post).getD 9 0 +
            65536 * (pre ++ m1 ++ post).getD 10 0 +
            16777216 * (pre ++ m1 ++ post).getD 11 0) := by
        unfold unpackI
        rw [if_pos (by rw [List.length_append, List.length_append, hpre, hm1]; omega)]
      have h82 : unpackI (pre ++ m2 ++ post) 8 =
          Except.ok ((pre ++ m2 ++ post).getD 8 0 +
            256 * (pre ++ m2 ++ post).getD 9 0 +
            65536 * (pre ++ m2 ++ post).getD 10 0 +
            16777216 * (pre ++ m2 ++ post).getD 11 0) := by
        unfold unpackI
        rw [if_pos (by rw [List.length_append, List.length_append, hpre, hm2]; omega)]
      rw [h81, h82]
      simp only []
      exact parseLoop_congr hlen hdrop 12 [] (by omega)

theorem C10_entry_count_field_unused_witness :
    ([0x50, 0x44, 0x48, 0x53, 0, 0, 0, 0] : List Nat).length = 8 ∧
    ([5, 0, 0, 0] : List Nat).length = 4 ∧
    ([9, 9, 9, 9] : List Nat).length = 4 ∧
    parse_pdhs ([0x50, 0x44, 0x48, 0x53, 0, 0, 0, 0] ++ [5, 0, 0, 0] ++ []) =
      parse_pdhs ([0x50, 0x44, 0x48, 0x53, 0, 0, 0, 0] ++ [9, 9, 9, 9] ++ []) :=
  ⟨rfl, rfl, rfl,
    C10_entry_count_field_unused [0x50, 0x44, 0x48, 0x53, 0, 0, 0, 0]
      [5, 0, 0, 0] [9, 9, 9, 9] [] rfl rfl rfl⟩
